import Mathlib

/-!
Verification development for the espanjapeli data pipeline.

This file gives a shallow embedding, in Lean, of the algorithmic core of the
repository's batch pipeline:

* `scripts/data_story_pipeline/tatoeba_download.py` — corpus loading and
  translation-triple resolution (`load_links`, `load_raw_sentences`);
* `scripts/data_story_pipeline/tatoeba_categorize.py` — keyword/pattern
  classification (`assign_categories`, `convert_to_sentence_objects`) and the
  size-bounded shard writer (`write_output_files`);
* `scripts/data_pipeline/generate_lessons.py` — complexity thresholds
  (`get_max_word_count_for_cefr`), per-word sentence search
  (`find_sentences_for_word`) and vocabulary tiering
  (`split_category_into_tiers`, `generate_lesson`);
* `scripts/generate_word_to_sentences_mapping.py` — the reverse index
  (`find_word_in_sentence`, `generate_mapping`).

Python text values are modelled as `List Char` (a Python `str` is a sequence
of code points).  Python's `dict` is modelled as an association list in
assignment order, looked up right-to-left (last assignment wins); a builtin
`set` is modelled by the list of its elements in iteration order, which
CPython does not fix across processes — where that matters the enumeration is
an explicit parameter.  Python's stable `sorted`/`list.sort` is modelled by
the stable insertion sort `pySort` below.  Regular-expression search for the single
shape the code uses (`\b` + escaped word + `\b`, over lowercased text) is
implemented directly; arbitrary category regexes are modelled as opaque
boolean match functions together with a validity flag (`re.error` aborts a
pattern, which the code skips).
-/

namespace Espanjapeli

/-! ### Shared text primitives -/

/-- Python `needle in hay` on strings: contiguous-substring containment. -/
def containsSub (needle hay : List Char) : Bool :=
  (List.range (hay.length + 1)).any (fun i => decide ((hay.drop i).take needle.length = needle))

/-- Python `str.split()` with no separator: split on whitespace runs and drop
empty chunks.  Used for `word_count = len(raw["spa"].split())`. -/
def pySplitWs (s : List Char) : List (List Char) :=
  (s.splitOnP Char.isWhitespace).filter (fun w => !w.isEmpty)

/-- Python `str.strip()`: remove leading and trailing whitespace. -/
def pyStrip (s : List Char) : List Char :=
  ((s.dropWhile Char.isWhitespace).reverse.dropWhile Char.isWhitespace).reverse

/-- A word character for the regex `\b` boundary (Python `\w`), restricted to
the ASCII range of the model alphabet: alphanumeric or underscore. -/
def isWordChar (c : Char) : Bool :=
  c.isAlphanum || c == '_'

/-- Word-character test on an optional character; absent (string edge) counts
as a non-word position, exactly as `\b` treats the ends of the text. -/
def wordCharAt (oc : Option Char) : Bool :=
  match oc with
  | none => false
  | some c => isWordChar c

/-- `re.search(r'\b' + re.escape(w) + r'\b', s)` succeeding at offset `i`:
the text of `w` occurs at `i`, and on each side the word-character status
flips (the `\b` boundary condition). -/
def matchesAt (w s : List Char) (i : Nat) : Bool :=
  decide ((s.drop i).take w.length = w) &&
  (wordCharAt (if i = 0 then none else s.get? (i - 1)) != wordCharAt w.head?) &&
  (wordCharAt w.getLast? != wordCharAt (s.get? (i + w.length)))

/-- `bool(re.search(r'\b' + re.escape(w) + r'\b', s))`: some offset matches. -/
def searchWholeWord (w s : List Char) : Bool :=
  (List.range (s.length + 1)).any (fun i => matchesAt w s i)

/-! ### A stable sort modelling Python's `sorted` / `list.sort`

Python's sort is stable and total-preorder based.  We model it by a stable
insertion sort: an element is inserted before the first strictly-later
element, so elements comparing equal keep their original relative order —
the same result Python's stable sort produces for any total preorder `le`.
Insertion sort is structurally recursive, hence fully kernel-reducible. -/

/-- Insert `x` into `l` before the first element `y` with `le x y`. -/
def orderedInsert {α : Type} (le : α → α → Bool) (x : α) : List α → List α
  | [] => [x]
  | y :: ys => if le x y then x :: y :: ys else y :: orderedInsert le x ys

/-- Stable insertion sort by the boolean total preorder `le`. -/
def pySort {α : Type} (le : α → α → Bool) : List α → List α
  | [] => []
  | x :: xs => orderedInsert le x (pySort le xs)

/-! ### `tatoeba_categorize.py` — category assignment -/

/-- One entry of a category's `patterns` list.  The Python code calls
`re.search(pattern, sentence_text, re.IGNORECASE)` inside `try/except
re.error`; the regex engine itself is outside the model, so a pattern is an
opaque match predicate `search` plus a flag `valid` that is `false` when the
search raises `re.error` (the code then skips that one pattern). -/
structure Pat where
  valid : Bool
  search : List Char → Bool

/-- `Category` from `tatoeba_categorize.py` (`id`, `priority`, `keywords`,
`patterns`). -/
structure Category where
  id : String
  priority : Int
  keywords : List (List Char)
  patterns : List Pat

instance : Inhabited Category := ⟨⟨"", 0, [], []⟩⟩

/-- The keyword arm of `assign_categories`: some keyword is a substring of the
lowercased sentence text. -/
def keywordHit (spanish_lower : List Char) (category : Category) : Bool :=
  category.keywords.any (fun keyword => containsSub keyword spanish_lower)

/-- The pattern arm of `assign_categories`: some pattern searches successfully
on the original sentence text (invalid patterns are skipped). -/
def patternHit (sentence_text : List Char) (category : Category) : Bool :=
  category.patterns.any (fun p => p.valid && p.search sentence_text)

/-- A category matches a sentence: keyword arm or pattern arm succeeds. -/
def categoryMatches (sentence_text : List Char) (category : Category) : Bool :=
  keywordHit (sentence_text.map Char.toLower) category || patternHit sentence_text category

/-- `assign_categories(sentence_text, categories)`: iterate the category list
in order, appending `category.id` when the keyword arm matches the lowercased
text, else when the pattern arm matches. -/
def assign_categories (sentence_text : List Char) (categories : List Category) : List String :=
  let spanish_lower := sentence_text.map Char.toLower
  categories.foldl
    (fun matched_categories category =>
      if keywordHit spanish_lower category then
        matched_categories ++ [category.id]
      else if patternHit sentence_text category then
        matched_categories ++ [category.id]
      else
        matched_categories)
    []

/-- `categories.sort(key=lambda c: c.priority)` at the end of
`load_categories`: a stable ascending sort by priority. -/
def load_categories_sort (categories : List Category) : List Category :=
  pySort (fun a b => decide (a.priority ≤ b.priority)) categories

/-- A raw deduplicated triple as consumed by `convert_to_sentence_objects`
(the dictionaries produced by `tatoeba_download.py`). -/
structure RawTriple where
  spa_id : String
  fin_id : String
  eng_id : String
  spa : List Char
  fin : List Char
  eng : List Char
deriving DecidableEq

/-- The `Sentence` dataclass of `tatoeba_categorize.py`. -/
structure Sentence where
  id : String
  spanish : List Char
  finnish : List Char
  english : List Char
  wordCount : Nat
  categories : List String
deriving DecidableEq

/-- The per-sentence body of `convert_to_sentence_objects`: compute the word
count, assign categories, and fall back to `["general"]` when none matched. -/
def convertSentence (categories : List Category) (raw : RawTriple) : Sentence :=
  let word_count := (pySplitWs raw.spa).length
  let assigned_categories := assign_categories raw.spa categories
  let assigned_categories :=
    if assigned_categories = [] then ["general"] else assigned_categories
  { id := raw.spa_id
    spanish := raw.spa
    finnish := raw.fin
    english := raw.eng
    wordCount := word_count
    categories := assigned_categories }

/-- `convert_to_sentence_objects(raw_sentences, categories)`. -/
def convert_to_sentence_objects (raw_sentences : List RawTriple)
    (categories : List Category) : List Sentence :=
  raw_sentences.map (convertSentence categories)

/-! ### `tatoeba_categorize.py` — output writer (`write_output_files`) -/

/-- `MAX_FILE_SIZE = 500 * 1024` — the byte budget of one shard file. -/
def MAX_FILE_SIZE : Nat := 500 * 1024

/-- The splitting arm of `write_output_files`, as a function of the length in
bytes of the UTF-8 encoding of `json.dumps(sentence_dicts, ...)` (the byte
serialisation itself is outside the model) and of the sentence list:
`num_parts = len(json_bytes) // MAX_FILE_SIZE + 1`,
`sentences_per_part = len(sentence_dicts) // num_parts + 1`, and part
`part_num` is the slice
`sentence_dicts[part_num * spp : min((part_num + 1) * spp, len)]`. -/
def splitParts {α : Type} (json_bytes_len : Nat) (sentence_dicts : List α) : List (List α) :=
  let num_parts := json_bytes_len / MAX_FILE_SIZE + 1
  let sentences_per_part := sentence_dicts.length / num_parts + 1
  (List.range num_parts).map
    (fun part_num => (sentence_dicts.drop (part_num * sentences_per_part)).take sentences_per_part)

/-- One category's file contents in `write_output_files`: several part files
when the serialised size exceeds `MAX_FILE_SIZE`, otherwise one file. -/
def write_category_parts {α : Type} (json_bytes_len : Nat) (sentence_dicts : List α) :
    List (List α) :=
  if MAX_FILE_SIZE < json_bytes_len then splitParts json_bytes_len sentence_dicts
  else [sentence_dicts]

/-- The filenames `write_output_files` writes for one category, in write
order: `{category_id}-{part}.json` for each part when split, else
`{category_id}.json`. -/
def category_filenames (category_id : String) (json_bytes_len : Nat) : List String :=
  if MAX_FILE_SIZE < json_bytes_len then
    (List.range (json_bytes_len / MAX_FILE_SIZE + 1)).map
      (fun part_num => category_id ++ "-" ++ toString (part_num + 1) ++ ".json")
  else
    [category_id ++ ".json"]

/-- `category_by_id.get(cid, Category(cid, 999, [])).priority`: the dict
comprehension `{cat.id: cat for cat in categories}` keeps the last category
with a given id, and a missing id defaults to priority 999. -/
def lookup_priority (categories : List Category) (cid : String) : Int :=
  (((categories.reverse).find? (fun c => c.id = cid)).map Category.priority).getD 999

/-- `sorted(groups.items(), key=lambda item: ...priority)`: a stable sort of
the category groups by looked-up priority. -/
def sortGroups {α : Type} (categories : List Category) (groups : List (String × List α)) :
    List (String × List α) :=
  pySort (fun a b => decide (lookup_priority categories a.1 ≤ lookup_priority categories b.1))
    groups

/-- The ordered sequence of files `write_output_files` writes: for each
category group in priority order its shard file(s), then the manifest
`index.json` last.  `json_len_of` gives the serialised byte length of a
group's sentence-dictionary list.  Aborting the stage after `k` writes leaves
exactly `(write_output_trace ...).take k` on disk: each file is opened and
written directly at its final path. -/
def write_output_trace {α : Type} (json_len_of : List α → Nat) (categories : List Category)
    (groups : List (String × List α)) : List String :=
  ((sortGroups categories groups).map
    (fun g => category_filenames g.1 (json_len_of g.2))).flatten ++ ["index.json"]

/-! ### `tatoeba_download.py` — corpus lookup and triple resolution -/

/-- Lookup in the `sent_text` dict built by `load_sentences`
(`sent_text[sid] = (lang, text)`); the association list records assignments
in order and the last assignment wins. -/
def dict_get (sent_text : List (String × String × List Char)) (sid : String) :
    Option (String × List Char) :=
  ((sent_text.reverse).find? (fun e => e.1 = sid)).map (fun e => e.2)

/-- The filter of the candidate comprehensions in `load_raw_sentences`:
`sid in sent_text and sent_text[sid][0] == lang`. -/
def lang_linked (sent_text : List (String × String × List Char)) (lang : String)
    (sid : String) : Bool :=
  match dict_get sent_text sid with
  | some (l, _) => decide (l = lang)
  | none => false

/-- The per-sentence body of the triple-finding loop in `load_raw_sentences`:
partition the linked ids by language and take the first candidate of each.
`linked_ids` is an enumeration of the Python set `neighbors.get(spa_id,
set())` built by `load_links`; CPython fixes no iteration order for it across
processes, so the enumeration is an explicit input here.  Returns `none` when
a target language has no candidate (the sentence is dropped silently). -/
def resolve_triple (sent_text : List (String × String × List Char)) (spa_id : String)
    (spa_txt : List Char) (linked_ids : List String) : Option RawTriple :=
  let fin_ids := linked_ids.filter (lang_linked sent_text "fin")
  let eng_ids := linked_ids.filter (lang_linked sent_text "eng")
  match fin_ids, eng_ids with
  | fin_id :: _, eng_id :: _ =>
    let fin_txt := (((dict_get sent_text fin_id).map (fun e => e.2))).getD []
    let eng_txt := (((dict_get sent_text eng_id).map (fun e => e.2))).getD []
    some { spa_id := spa_id, fin_id := fin_id, eng_id := eng_id,
           spa := spa_txt, fin := fin_txt, eng := eng_txt }
  | _, _ => none

/-! ### `generate_lessons.py` — thresholds, sentence search, tiering -/

/-- A sentence record as read back from the shard files: the fields of the
`Sentence` TypedDict (and of the `sentences_map` values in
`generate_word_to_sentences_mapping.py`) that the pipeline logic touches. -/
structure SentData where
  id : String
  spanish : List Char
  wordCount : Nat
deriving DecidableEq

/-- `normalize_word(word)`: lowercase and strip. -/
def normalize_word (word : List Char) : List Char :=
  pyStrip (word.map Char.toLower)

/-- `get_max_word_count_for_cefr(cefr_level)`.  Python's `if not cefr_level`
is true for `None` and for the empty string; otherwise the level is looked up
in the six-entry map with default 15. -/
def get_max_word_count_for_cefr (cefr_level : Option String) : Nat :=
  match cefr_level with
  | none => 15
  | some lvl =>
    if lvl = "" then 15
    else
      (((([("A1", 6), ("A2", 8), ("B1", 10), ("B2", 12), ("C1", 15), ("C2", 20)] :
          List (String × Nat)).find? (fun e => e.1 = lvl)).map (fun e => e.2)).getD 15)

/-- The scan loop of `find_sentences_for_word`: walk the pool in order,
collect sentences whose normalized text whole-word matches the word and whose
`wordCount` is within the threshold, and stop as soon as `cap`
(`max_sentences * 3`) candidates have been collected. -/
def collectMatches (normalized_word : List Char) (max_word_count cap : Nat) :
    List SentData → List SentData → List SentData
  | [], acc => acc
  | sentence :: rest, acc =>
    let spanish_text := normalize_word sentence.spanish
    if searchWholeWord normalized_word spanish_text then
      let acc2 := if sentence.wordCount ≤ max_word_count then acc ++ [sentence] else acc
      if cap ≤ acc2.length then acc2
      else collectMatches normalized_word max_word_count cap rest acc2
    else
      collectMatches normalized_word max_word_count cap rest acc

/-- `find_sentences_for_word(word_spanish, sentences, max_sentences,
cefr_level)`: collect (early-terminated) candidates, stable-sort them
ascending by `wordCount`, and return the ids of the first `max_sentences`. -/
def find_sentences_for_word (word_spanish : List Char) (sentences : List SentData)
    (max_sentences : Nat) (cefr_level : Option String) : List String :=
  let normalized_word := normalize_word word_spanish
  let max_word_count := get_max_word_count_for_cefr cefr_level
  let matching_sentences :=
    collectMatches normalized_word max_word_count (max_sentences * 3) sentences []
  ((pySort (fun a b => decide (a.wordCount ≤ b.wordCount)) matching_sentences).take
    max_sentences).map SentData.id

/-- A vocabulary word as extracted from `words.ts` by
`extract_vocabulary_categories` (`id`, `spanish`, optional `cefrLevel`). -/
structure VWord where
  id : String
  spanish : List Char
  cefrLevel : Option String
deriving DecidableEq

/-- `split_category_into_tiers(category_key, words, tier_size)`: `[1]` when
the category fits in one tier, else `[1, ..., ceil(len / tier_size)]`. -/
def split_category_into_tiers (words : List VWord) (tier_size : Nat) : List Nat :=
  let word_count := words.length
  if word_count ≤ tier_size then [1]
  else List.range' 1 ((word_count + tier_size - 1) / tier_size)

/-- The tier slice of `generate_lesson`:
`words[(tier - 1) * tier_size : (tier - 1) * tier_size + tier_size]`. -/
def tier_words (words : List VWord) (tier tier_size : Nat) : List VWord :=
  (words.drop ((tier - 1) * tier_size)).take tier_size

/-- The `words` field of the lesson `generate_lesson` builds for one tier:
the ids of the tier's slice of the vocabulary list. -/
def lesson_word_ids (words : List VWord) (tier tier_size : Nat) : List String :=
  (tier_words words tier tier_size).map VWord.id

/-! ### `generate_word_to_sentences_mapping.py` — the reverse index -/

/-- `find_word_in_sentence(word_lower, sentence_spanish)`: whole-word regex
search of the (already lowercased) word in the lowercased sentence. -/
def find_word_in_sentence (word_lower : List Char) (sentence_spanish : List Char) : Bool :=
  searchWholeWord word_lower (sentence_spanish.map Char.toLower)

/-- A vocabulary entry of `words_map` in
`generate_word_to_sentences_mapping.py`: the key `word_id` (the script uses
the Spanish form as id) and the Spanish text used for matching. -/
structure WordData where
  id : String
  spanish : List Char
deriving DecidableEq

/-- The sort key `lambda sid: sentences_map[sid]['wordCount']`: dict lookup of
a sentence id's word count (ids are dict keys, hence unique; a missing id —
impossible for ids taken from the dict itself — defaults to 0). -/
def wcOf (sentences : List SentData) (sid : String) : Nat :=
  (((sentences.find? (fun s => s.id = sid)).map SentData.wordCount)).getD 0

/-- The matching-id collection loop of `generate_mapping` for one word:
the ids of the sentences, in dict iteration order, whose Spanish text
contains the word as a whole word. -/
def matching_ids (sentences : List SentData) (word_lower : List Char) : List String :=
  (sentences.filter (fun s => find_word_in_sentence word_lower s.spanish)).map SentData.id

/-- The per-word body of `generate_mapping`: `none` when no sentence matched
(the word is then *not* added to the mapping), else the first 5 matching ids
after a stable ascending sort by the matched sentence's word count. -/
def generate_mapping_entry (sentences : List SentData) (word_lower : List Char) :
    Option (List String) :=
  if matching_ids sentences word_lower = [] then none
  else some ((pySort (fun a b => decide (wcOf sentences a ≤ wcOf sentences b))
    (matching_ids sentences word_lower)).take 5)

/-- `for word_id, word_data in sorted(words_map.items())`: the words are
visited in ascending order of their key (keys are unique dict keys, so the
tuple comparison never reaches the values). -/
def sortWordsById (words : List WordData) : List WordData :=
  pySort (fun a b => decide (a.id ≤ b.id)) words

/-- `generate_mapping(words_map, sentences_map)` as the association list it
builds: one entry per word with at least one match, in sorted key order. -/
def generate_mapping (words : List WordData) (sentences : List SentData) :
    List (String × List String) :=
  (sortWordsById words).foldl
    (fun mapping w =>
      match generate_mapping_entry sentences (w.spanish.map Char.toLower) with
      | some limited_ids => mapping ++ [(w.id, limited_ids)]
      | none => mapping)
    []

/-- A concrete sentence pool: nine ten-word sentences containing "gato"
followed by one two-word sentence containing "gato".  Exercises the early
termination of the `find_sentences_for_word` scan. -/
def c5pool : List SentData :=
  [⟨"s1", "gato".toList, 10⟩, ⟨"s2", "gato".toList, 10⟩, ⟨"s3", "gato".toList, 10⟩,
   ⟨"s4", "gato".toList, 10⟩, ⟨"s5", "gato".toList, 10⟩, ⟨"s6", "gato".toList, 10⟩,
   ⟨"s7", "gato".toList, 10⟩, ⟨"s8", "gato".toList, 10⟩, ⟨"s9", "gato".toList, 10⟩,
   ⟨"s10", "gato".toList, 2⟩]

/-! ### General lemmas: the stable sort, slice flattening, fold shapes -/

theorem orderedInsert_perm {α : Type} (le : α → α → Bool) (x : α) :
    ∀ (l : List α), (orderedInsert le x l).Perm (x :: l)
  | [] => List.Perm.refl _
  | y :: ys => by
    unfold orderedInsert
    by_cases h : le x y
    · simp [h]
    · rw [if_neg h]
      exact ((orderedInsert_perm le x ys).cons y).trans (List.Perm.swap x y ys)

theorem pySort_perm {α : Type} (le : α → α → Bool) :
    ∀ (l : List α), (pySort le l).Perm l
  | [] => List.Perm.refl _
  | x :: xs => (orderedInsert_perm le x (pySort le xs)).trans ((pySort_perm le xs).cons x)

theorem pairwise_orderedInsert {α : Type} (le : α → α → Bool)
    (total : ∀ a b, le a b || le b a) (htrans : ∀ a b c, le a b → le b c → le a c) (x : α) :
    ∀ (l : List α), l.Pairwise (fun a b => le a b) →
      (orderedInsert le x l).Pairwise (fun a b => le a b)
  | [], _ => by simp [orderedInsert]
  | y :: ys, h => by
    unfold orderedInsert
    by_cases hxy : le x y
    · rw [if_pos hxy]
      refine List.Pairwise.cons ?_ h
      intro z hz
      rcases List.mem_cons.mp hz with rfl | hz
      · exact hxy
      · exact htrans x y z hxy (List.rel_of_pairwise_cons h hz)
    · have hyx : le y x := by
        have htot := total x y
        simp only [Bool.or_eq_true] at htot
        exact htot.resolve_left hxy
      rw [if_neg hxy]
      refine List.Pairwise.cons ?_
        (pairwise_orderedInsert le total htrans x ys (List.Pairwise.of_cons h))
      intro z hz
      have hz2 : z = x ∨ z ∈ ys := by
        have := (orderedInsert_perm le x ys).mem_iff.mp hz
        simpa using this
      rcases hz2 with rfl | hz2
      · exact hyx
      · exact List.rel_of_pairwise_cons h hz2

theorem pySort_pairwise {α : Type} (le : α → α → Bool)
    (total : ∀ a b, le a b || le b a) (htrans : ∀ a b c, le a b → le b c → le a c) :
    ∀ (l : List α), (pySort le l).Pairwise (fun a b => le a b)
  | [] => List.Pairwise.nil
  | x :: xs =>
    pairwise_orderedInsert le total htrans x (pySort le xs)
      (pySort_pairwise le total htrans xs)

/-- In a pairwise-`R` list, every element of `take n` is `R`-related to every
element of `drop n`. -/
theorem pairwise_take_drop {α : Type} {R : α → α → Prop} {l : List α}
    (h : l.Pairwise R) (n : Nat) :
    ∀ a ∈ l.take n, ∀ b ∈ l.drop n, R a b := by
  rw [← List.take_append_drop n l, List.pairwise_append] at h
  exact h.2.2

/-- Flattening `k` consecutive slices of width `n` recovers the whole list,
provided `k` slices suffice to cover it. -/
theorem flatten_slices {α : Type} (n : Nat) :
    ∀ (k : Nat) (l : List α), l.length ≤ k * n →
      ((List.range k).map (fun i => (l.drop (i * n)).take n)).flatten = l := by
  intro k
  induction k with
  | zero =>
    intro l h
    rw [Nat.zero_mul, Nat.le_zero] at h
    rw [List.length_eq_zero] at h
    simp [h]
  | succ k ih =>
    intro l h
    rw [List.range_succ_eq_map]
    simp only [List.map_cons, List.flatten_cons, List.map_map, Function.comp_def,
      Nat.zero_mul, List.drop_zero]
    have hmap : ∀ i ∈ List.range k,
        (l.drop ((i + 1) * n)).take n = ((l.drop n).drop (i * n)).take n := by
      intro i _
      rw [List.drop_drop]
      congr 2
      rw [Nat.succ_mul, Nat.add_comm]
    rw [List.map_congr_left hmap]
    have hlen : (l.drop n).length ≤ k * n := by
      rw [List.length_drop]
      have h' : l.length ≤ k * n + n := by rw [Nat.succ_mul] at h; exact h
      exact Nat.sub_le_iff_le_add.mpr h'
    rw [ih (l.drop n) hlen, List.take_append_drop]

/-- The accumulator-passing shape of the `assign_categories` loop. -/
theorem assign_foldl_eq (sentence_text : List Char) :
    ∀ (categories : List Category) (acc : List String),
      categories.foldl
        (fun matched_categories category =>
          if keywordHit (sentence_text.map Char.toLower) category then
            matched_categories ++ [category.id]
          else if patternHit sentence_text category then
            matched_categories ++ [category.id]
          else
            matched_categories) acc
      = acc ++ (categories.filter (categoryMatches sentence_text)).map Category.id := by
  intro categories
  induction categories with
  | nil => intro acc; simp
  | cons c cs ih =>
    intro acc
    simp only [List.foldl_cons, List.filter_cons]
    by_cases hk : keywordHit (sentence_text.map Char.toLower) c
    · have hm : categoryMatches sentence_text c = true := by
        simp [categoryMatches, hk]
      rw [if_pos hk, ih, hm]
      simp
    · by_cases hp : patternHit sentence_text c
      · have hm : categoryMatches sentence_text c = true := by
          simp [categoryMatches, hp]
        rw [if_neg hk, if_pos hp, ih, hm]
        simp
      · have hm : categoryMatches sentence_text c = false := by
          simp [categoryMatches, hk, hp]
        rw [if_neg hk, if_neg hp, ih, hm]
        simp

/-- `assign_categories` returns exactly the ids of the matching categories, in
rule-list order. -/
theorem assign_categories_eq (sentence_text : List Char) (categories : List Category) :
    assign_categories sentence_text categories
      = (categories.filter (categoryMatches sentence_text)).map Category.id := by
  have h := assign_foldl_eq sentence_text categories []
  simpa [assign_categories] using h

/-- The accumulator-passing shape of the `generate_mapping` loop. -/
theorem generate_mapping_foldl_eq (sentences : List SentData) :
    ∀ (ws : List WordData) (acc : List (String × List String)),
      ws.foldl
        (fun mapping w =>
          match generate_mapping_entry sentences (w.spanish.map Char.toLower) with
          | some limited_ids => mapping ++ [(w.id, limited_ids)]
          | none => mapping) acc
      = acc ++ ws.filterMap
          (fun w => (generate_mapping_entry sentences (w.spanish.map Char.toLower)).map
            (fun ids => (w.id, ids))) := by
  intro ws
  induction ws with
  | nil => intro acc; simp
  | cons w ws ih =>
    intro acc
    simp only [List.foldl_cons, List.filterMap_cons]
    rcases h : generate_mapping_entry sentences (w.spanish.map Char.toLower) with _ | ids
    · simp only [h, Option.map_none]
      exact ih acc
    · simp only [h, Option.map_some]
      rw [ih]
      simp

/-- `generate_mapping` is the filter-map over the key-sorted word list: one
entry per word whose per-word search produced something. -/
theorem generate_mapping_eq (words : List WordData) (sentences : List SentData) :
    generate_mapping words sentences
      = (sortWordsById words).filterMap
          (fun w => (generate_mapping_entry sentences (w.spanish.map Char.toLower)).map
            (fun ids => (w.id, ids))) := by
  have h := generate_mapping_foldl_eq sentences (sortWordsById words) []
  simpa [generate_mapping] using h

/-- The `categories` field `convertSentence` produces. -/
theorem convertSentence_categories (categories : List Category) (raw : RawTriple) :
    (convertSentence categories raw).categories
      = (if assign_categories raw.spa categories = [] then ["general"]
         else assign_categories raw.spa categories) := rfl

/-- C2: every classified sentence has a non-empty category list
(`len(category_ids) ≥ 1`), and a sentence whose text matches no category's
keywords or patterns gets exactly `["general"]`. -/
theorem C2_nonempty_categories (raw_sentences : List RawTriple)
    (categories : List Category) (raw : RawTriple) :
    (∀ s ∈ convert_to_sentence_objects raw_sentences categories, 1 ≤ s.categories.length) ∧
    ((∀ c ∈ categories, categoryMatches raw.spa c = false) →
      (convertSentence categories raw).categories = ["general"]) := by
  constructor
  · intro s hs
    rw [convert_to_sentence_objects, List.mem_map] at hs
    obtain ⟨r, _, rfl⟩ := hs
    rw [convertSentence_categories]
    by_cases h : assign_categories r.spa categories = []
    · rw [if_pos h]
      exact Nat.le_refl 1
    · rw [if_neg h]
      exact List.length_pos.mpr h
  · intro h
    have hnil : assign_categories raw.spa categories = [] := by
      rw [assign_categories_eq]
      have hf : categories.filter (categoryMatches raw.spa) = [] :=
        List.filter_eq_nil_iff.mpr (fun c hc => by simp [h c hc])
      rw [hf]
      rfl
    rw [convertSentence_categories, if_pos hnil]

/-- Witness for C2 at a concrete sentence and empty rule set. -/
theorem C2_nonempty_categories_witness :
    (∀ s ∈ convert_to_sentence_objects
        [⟨"s1", "f1", "e1", "Hola".toList, "Moi".toList, "Hi".toList⟩] [],
      1 ≤ s.categories.length) ∧
    (convertSentence [] ⟨"s1", "f1", "e1", "Hola".toList, "Moi".toList, "Hi".toList⟩).categories
      = ["general"] := by
  have h := C2_nonempty_categories
    [⟨"s1", "f1", "e1", "Hola".toList, "Moi".toList, "Hi".toList⟩] []
    ⟨"s1", "f1", "e1", "Hola".toList, "Moi".toList, "Hi".toList⟩
  exact ⟨h.1, h.2 (by intro c hc; simp at hc)⟩

/-- C10: `get_max_word_count_for_cefr` maps a missing tag to the default 15,
the six recognized levels A1, A2, B1, B2, C1, C2 to 6, 8, 10, 12, 15, 20
respectively, and any unrecognized tag to 15. -/
theorem C10_cefr_threshold_map :
    get_max_word_count_for_cefr none = 15 ∧
    get_max_word_count_for_cefr (some "A1") = 6 ∧
    get_max_word_count_for_cefr (some "A2") = 8 ∧
    get_max_word_count_for_cefr (some "B1") = 10 ∧
    get_max_word_count_for_cefr (some "B2") = 12 ∧
    get_max_word_count_for_cefr (some "C1") = 15 ∧
    get_max_word_count_for_cefr (some "C2") = 20 ∧
    ∀ lvl : String, lvl ∉ (["A1", "A2", "B1", "B2", "C1", "C2"] : List String) →
      get_max_word_count_for_cefr (some lvl) = 15 := by
  refine ⟨rfl, by decide, by decide, by decide, by decide, by decide, by decide, ?_⟩
  intro lvl h
  simp only [get_max_word_count_for_cefr]
  by_cases h0 : lvl = ""
  · rw [if_pos h0]
  · rw [if_neg h0]
    have hfind :
        (([("A1", 6), ("A2", 8), ("B1", 10), ("B2", 12), ("C1", 15), ("C2", 20)] :
          List (String × Nat)).find? (fun e => e.1 = lvl)) = none := by
      rw [List.find?_eq_none]
      intro e he
      simp only [List.mem_cons, List.not_mem_nil, or_false, not_or] at h he
      rcases he with rfl | rfl | rfl | rfl | rfl | rfl <;> simp_all [eq_comm]
    rw [hfind]
    rfl

/-- Witness for C10 at the concrete unrecognized tag `"X9"`. -/
theorem C10_cefr_threshold_map_witness :
    "X9" ∉ (["A1", "A2", "B1", "B2", "C1", "C2"] : List String) ∧
    get_max_word_count_for_cefr (some "X9") = 15 :=
  ⟨by decide, C10_cefr_threshold_map.2.2.2.2.2.2.2 "X9" (by decide)⟩

/-- In a pairwise-`R` list with `R` reflexive, the (default-valued) head is
`R`-below every member. -/
theorem headI_rel_of_pairwise {α : Type} [Inhabited α] {R : α → α → Prop}
    (hrefl : ∀ a, R a a) {l : List α} (hp : l.Pairwise R) :
    ∀ c ∈ l, R l.headI c := by
  cases l with
  | nil => intro c hc; exact absurd hc (List.not_mem_nil c)
  | cons hd tl =>
    intro c hc
    rw [List.headI_cons]
    rcases List.mem_cons.mp hc with rfl | hc
    · exact hrefl c
    · exact List.rel_of_pairwise_cons hp hc

/-- C9: with the rule list sorted ascending by priority as `load_categories`
leaves it, the classifier emits exactly the matching categories' ids in rule
order, that order is ascending by priority, and the first listed match has
minimal priority among all matches. -/
theorem C9_priority_order (sentence_text : List Char) (categories : List Category) :
    assign_categories sentence_text (load_categories_sort categories)
      = ((load_categories_sort categories).filter (categoryMatches sentence_text)).map
          Category.id ∧
    ((load_categories_sort categories).filter (categoryMatches sentence_text)).Pairwise
      (fun a b => a.priority ≤ b.priority) ∧
    ∀ c ∈ (load_categories_sort categories).filter (categoryMatches sentence_text),
      (((load_categories_sort categories).filter (categoryMatches sentence_text)).headI).priority
        ≤ c.priority := by
  have hsorted : (load_categories_sort categories).Pairwise
      (fun a b : Category => a.priority ≤ b.priority) := by
    have h := pySort_pairwise (fun a b : Category => decide (a.priority ≤ b.priority))
      (fun a b => by rcases Int.le_total a.priority b.priority with h | h <;> simp [h])
      (fun a b c hab hbc => by
        simp only [decide_eq_true_eq] at hab hbc ⊢
        omega)
      categories
    exact h.imp (fun hab => by simpa using hab)
  have hfiltered : ((load_categories_sort categories).filter
      (categoryMatches sentence_text)).Pairwise (fun a b => a.priority ≤ b.priority) :=
    List.Pairwise.sublist (List.filter_sublist _) hsorted
  exact ⟨assign_categories_eq _ _, hfiltered,
    headI_rel_of_pairwise (R := fun a b : Category => a.priority ≤ b.priority)
      (fun a => Int.le_refl _) hfiltered⟩

/-- Witness for C9: two rules with priorities 2 and 1 both matching `"hola"`;
the classifier lists the priority-1 rule first. -/
theorem C9_priority_order_witness :
    (⟨"b", 2, [['o']], []⟩ : Category) ∈
      (load_categories_sort [⟨"b", 2, [['o']], []⟩, ⟨"a", 1, [['h']], []⟩]).filter
        (categoryMatches "hola".toList) ∧
    (((load_categories_sort [⟨"b", 2, [['o']], []⟩, ⟨"a", 1, [['h']], []⟩]).filter
        (categoryMatches "hola".toList)).headI).priority
      ≤ (⟨"b", 2, [['o']], []⟩ : Category).priority := by
  have hmem : (⟨"b", 2, [['o']], []⟩ : Category) ∈
      (load_categories_sort [⟨"b", 2, [['o']], []⟩, ⟨"a", 1, [['h']], []⟩]).filter
        (categoryMatches "hola".toList) := by
    have heq : (load_categories_sort [⟨"b", 2, [['o']], []⟩, ⟨"a", 1, [['h']], []⟩]).filter
        (categoryMatches "hola".toList)
        = [⟨"a", 1, [['h']], []⟩, ⟨"b", 2, [['o']], []⟩] := rfl
    rw [heq]
    exact List.Mem.tail _ (List.Mem.head _)
  exact ⟨hmem,
    (C9_priority_order "hola".toList [⟨"b", 2, [['o']], []⟩, ⟨"a", 1, [['h']], []⟩]).2.2
      _ hmem⟩

/-- C3: with pairwise-distinct word ids and tier size 15, the generated
lessons' word-id lists partition the vocabulary list: concatenated in tier
order they give back the original id list, distinct tiers are disjoint,
every non-final tier holds exactly 15 ids, and every tier holds at most
15. -/
theorem C3_tiers_partition (words : List VWord)
    (hnodup : (words.map VWord.id).Nodup) :
    ((split_category_into_tiers words 15).map (fun t => lesson_word_ids words t 15)).flatten
        = words.map VWord.id ∧
    ((split_category_into_tiers words 15).map (fun t => lesson_word_ids words t 15)).Pairwise
        List.Disjoint ∧
    (∀ t ∈ split_category_into_tiers words 15,
      t < (split_category_into_tiers words 15).length →
        (lesson_word_ids words t 15).length = 15) ∧
    (∀ t ∈ split_category_into_tiers words 15, (lesson_word_ids words t 15).length ≤ 15) := by
  have hsplit : split_category_into_tiers words 15
      = List.range' 1 (if words.length ≤ 15 then 1 else (words.length + 14) / 15) := by
    unfold split_category_into_tiers
    by_cases h : words.length ≤ 15 <;> simp [h]
  have hk1 : words.length ≤ (if words.length ≤ 15 then 1 else (words.length + 14) / 15) * 15 := by
    split <;> omega
  have hk2 : ¬ words.length ≤ 15 →
      ((if words.length ≤ 15 then 1 else (words.length + 14) / 15) - 1) * 15 < words.length := by
    intro h
    simp only [h, if_false]
    omega
  have hmaps : (List.range' 1 (if words.length ≤ 15 then 1 else (words.length + 14) / 15)).map
        (fun t => lesson_word_ids words t 15)
      = (List.range (if words.length ≤ 15 then 1 else (words.length + 14) / 15)).map
          (fun i => ((words.drop (i * 15)).take 15).map VWord.id) := by
    rw [List.range'_eq_map_range, List.map_map]
    apply List.map_congr_left
    intro i _
    show lesson_word_ids words (1 + i) 15 = ((words.drop (i * 15)).take 15).map VWord.id
    unfold lesson_word_ids tier_words
    have h1 : 1 + i - 1 = i := by omega
    rw [h1]
  have hflat : ((split_category_into_tiers words 15).map
      (fun t => lesson_word_ids words t 15)).flatten = words.map VWord.id := by
    rw [hsplit, hmaps]
    have hcomp : (List.range (if words.length ≤ 15 then 1 else (words.length + 14) / 15)).map
          (fun i => ((words.drop (i * 15)).take 15).map VWord.id)
        = ((List.range (if words.length ≤ 15 then 1 else (words.length + 14) / 15)).map
            (fun i => (words.drop (i * 15)).take 15)).map (List.map VWord.id) := by
      rw [List.map_map]
      rfl
    rw [hcomp, ← List.map_flatten, flatten_slices 15 _ words hk1]
  refine ⟨hflat, ?_, ?_, ?_⟩
  · have hnf : (((split_category_into_tiers words 15).map
        (fun t => lesson_word_ids words t 15)).flatten).Nodup := by
      rw [hflat]
      exact hnodup
    exact (List.nodup_flatten.mp hnf).2
  · intro t ht htlt
    rw [hsplit] at ht htlt
    rw [List.length_range'] at htlt
    rw [List.mem_range'] at ht
    obtain ⟨i, hik, hti⟩ := ht
    simp only [lesson_word_ids, tier_words, List.length_map, List.length_take,
      List.length_drop]
    by_cases h : words.length ≤ 15
    · simp only [h, if_true] at htlt
      omega
    · have := hk2 h
      simp only [h, if_false] at htlt this ⊢
      omega
  · intro t _
    simp only [lesson_word_ids, tier_words, List.length_map, List.length_take,
      List.length_drop]
    omega

/-- Witness for C3: a 17-word vocabulary splits into tiers of 15 and 2. -/
theorem C3_tiers_partition_witness :
    (((List.range 17).map (fun n => (⟨toString n, [], none⟩ : VWord))).map VWord.id).Nodup ∧
    ((split_category_into_tiers
        ((List.range 17).map (fun n => (⟨toString n, [], none⟩ : VWord))) 15).map
      (fun t => lesson_word_ids
        ((List.range 17).map (fun n => (⟨toString n, [], none⟩ : VWord))) t 15)).flatten
      = ((List.range 17).map (fun n => (⟨toString n, [], none⟩ : VWord))).map VWord.id := by
  have hnodup : (((List.range 17).map (fun n => (⟨toString n, [], none⟩ : VWord))).map
      VWord.id).Nodup := by decide
  exact ⟨hnodup,
    (C3_tiers_partition ((List.range 17).map (fun n => (⟨toString n, [], none⟩ : VWord)))
      hnodup).1⟩

/-- C4: a vocabulary word with at least one whole-token match gets a
reverse-index entry holding at most 5 ids, sorted ascending by the matched
sentences' word counts; together with the dropped matches the kept ids are
exactly the matching ids, every dropped match has word count at least that of
every kept one, and dropping only happens with the cap of 5 already full. -/
theorem C4_reverse_index_entry (words : List WordData) (sentences : List SentData)
    (w : WordData) (hw : w ∈ words)
    (hmatch : matching_ids sentences (w.spanish.map Char.toLower) ≠ []) :
    (w.id, ((pySort (fun a b => decide (wcOf sentences a ≤ wcOf sentences b))
        (matching_ids sentences (w.spanish.map Char.toLower))).take 5))
      ∈ generate_mapping words sentences ∧
    ((pySort (fun a b => decide (wcOf sentences a ≤ wcOf sentences b))
        (matching_ids sentences (w.spanish.map Char.toLower))).take 5).length ≤ 5 ∧
    ((pySort (fun a b => decide (wcOf sentences a ≤ wcOf sentences b))
        (matching_ids sentences (w.spanish.map Char.toLower))).take 5).Pairwise
      (fun a b => wcOf sentences a ≤ wcOf sentences b) ∧
    ((pySort (fun a b => decide (wcOf sentences a ≤ wcOf sentences b))
        (matching_ids sentences (w.spanish.map Char.toLower))).take 5
      ++ (pySort (fun a b => decide (wcOf sentences a ≤ wcOf sentences b))
        (matching_ids sentences (w.spanish.map Char.toLower))).drop 5).Perm
      (matching_ids sentences (w.spanish.map Char.toLower)) ∧
    ∀ d ∈ (pySort (fun a b => decide (wcOf sentences a ≤ wcOf sentences b))
        (matching_ids sentences (w.spanish.map Char.toLower))).drop 5,
      ((pySort (fun a b => decide (wcOf sentences a ≤ wcOf sentences b))
        (matching_ids sentences (w.spanish.map Char.toLower))).take 5).length = 5 ∧
      ∀ k ∈ (pySort (fun a b => decide (wcOf sentences a ≤ wcOf sentences b))
        (matching_ids sentences (w.spanish.map Char.toLower))).take 5,
        wcOf sentences k ≤ wcOf sentences d := by
  have hperm := pySort_perm (fun a b => decide (wcOf sentences a ≤ wcOf sentences b))
    (matching_ids sentences (w.spanish.map Char.toLower))
  have hpair : (pySort (fun a b => decide (wcOf sentences a ≤ wcOf sentences b))
      (matching_ids sentences (w.spanish.map Char.toLower))).Pairwise
      (fun a b => wcOf sentences a ≤ wcOf sentences b) := by
    have h := pySort_pairwise (fun a b => decide (wcOf sentences a ≤ wcOf sentences b))
      (fun a b => by
        rcases Nat.le_total (wcOf sentences a) (wcOf sentences b) with h | h <;> simp [h])
      (fun a b c hab hbc => by
        simp only [decide_eq_true_eq] at hab hbc ⊢
        omega)
      (matching_ids sentences (w.spanish.map Char.toLower))
    exact h.imp (fun hab => by simpa using hab)
  refine ⟨?_, ?_, ?_, ?_, ?_⟩
  · rw [generate_mapping_eq]
    apply List.mem_filterMap.mpr
    refine ⟨w, (pySort_perm _ words).mem_iff.mpr hw, ?_⟩
    unfold generate_mapping_entry
    rw [if_neg hmatch]
    rfl
  · rw [List.length_take]
    exact Nat.min_le_left _ _
  · exact List.Pairwise.sublist (List.take_sublist _ _) hpair
  · rw [List.take_append_drop]
    exact hperm
  · intro d hd
    have hlen5 : 5 < (pySort (fun a b => decide (wcOf sentences a ≤ wcOf sentences b))
        (matching_ids sentences (w.spanish.map Char.toLower))).length := by
      by_contra hle
      push_neg at hle
      have hnil : (pySort (fun a b => decide (wcOf sentences a ≤ wcOf sentences b))
          (matching_ids sentences (w.spanish.map Char.toLower))).drop 5 = [] :=
        List.drop_eq_nil_of_le hle
      rw [hnil] at hd
      exact absurd hd (List.not_mem_nil d)
    refine ⟨?_, ?_⟩
    · rw [List.length_take]
      omega
    · intro k hk
      exact pairwise_take_drop hpair 5 k hk d hd

/-- Witness for C4: the word `"gato"` matching the single sentence
`"el gato"` is present in the mapping with that sentence's id. -/
theorem C4_reverse_index_entry_witness :
    (⟨"gato", "gato".toList⟩ : WordData) ∈ [(⟨"gato", "gato".toList⟩ : WordData)] ∧
    matching_ids [⟨"t1", "el gato".toList, 2⟩] ("gato".toList.map Char.toLower) ≠ [] ∧
    ("gato", ["t1"]) ∈
      generate_mapping [⟨"gato", "gato".toList⟩] [⟨"t1", "el gato".toList, 2⟩] := by
  refine ⟨List.mem_singleton.mpr rfl, by decide, ?_⟩
  have h := (C4_reverse_index_entry [⟨"gato", "gato".toList⟩] [⟨"t1", "el gato".toList, 2⟩]
    ⟨"gato", "gato".toList⟩ (List.mem_singleton.mpr rfl) (by decide)).1
  exact h

/-- C6 counterexample: the word `"zzz"` has zero whole-token matches in a
corpus consisting of the sentence `"hola"`; the generated mapping is empty,
so in particular it does not contain the entry `("zzz", [])` that the claim
asserts to be present. -/
theorem C6_counterexample :
    generate_mapping [⟨"zzz", "zzz".toList⟩] [⟨"t1", "hola".toList, 1⟩]
      = ([] : List (String × List String)) ∧
    ("zzz", ([] : List String)) ∉
      generate_mapping [⟨"zzz", "zzz".toList⟩] [⟨"t1", "hola".toList, 1⟩] := by
  decide

/-- C6 amended: a vocabulary word with zero whole-token matches is omitted
from the word-to-sentences mapping altogether — no entry appears under its id
(rather than an entry with an empty list) — and the construction is a total
function, so no error occurs. -/
theorem C6_zero_match_word_omitted (words : List WordData) (sentences : List SentData)
    (w : WordData) (hw : w ∈ words)
    (huniq : (words.map WordData.id).Nodup)
    (hnomatch : matching_ids sentences (w.spanish.map Char.toLower) = []) :
    ∀ ids : List String, (w.id, ids) ∉ generate_mapping words sentences := by
  intro ids hmem
  rw [generate_mapping_eq] at hmem
  obtain ⟨w2, hw2mem, hw2some⟩ := List.mem_filterMap.mp hmem
  rcases hent : generate_mapping_entry sentences (w2.spanish.map Char.toLower) with _ | ids2
  · rw [hent] at hw2some
    exact Option.noConfusion hw2some
  · rw [hent] at hw2some
    simp only [Option.map_some', Option.some.injEq, Prod.mk.injEq] at hw2some
    obtain ⟨hid, _⟩ := hw2some
    have hw2words : w2 ∈ words := (pySort_perm _ words).mem_iff.mp hw2mem
    have heqw : w2 = w := List.inj_on_of_nodup_map huniq hw2words hw hid
    rw [heqw] at hent
    rw [generate_mapping_entry, if_pos hnomatch] at hent
    exact Option.noConfusion hent

/-- Witness for C6 (amended): the zero-match word `"zzz"` gets no entry. -/
theorem C6_zero_match_word_omitted_witness :
    ("zzz", (["t0"] : List String)) ∉
      generate_mapping [⟨"zzz", "zzz".toList⟩] [⟨"t1", "hola".toList, 1⟩] :=
  C6_zero_match_word_omitted [⟨"zzz", "zzz".toList⟩] [⟨"t1", "hola".toList, 1⟩]
    ⟨"zzz", "zzz".toList⟩ (List.mem_singleton.mpr rfl) (by decide) (by decide) ["t0"]

/-- The scan loop of `find_sentences_for_word` collects exactly the first
`cap` qualifying sentences in pool order: it equals the qualifying filter of
the pool truncated at `cap` (prefixed by the accumulator). -/
theorem collectMatches_eq (nw : List Char) (maxWc cap : Nat) :
    ∀ (rest acc : List SentData), acc.length < cap →
      collectMatches nw maxWc cap rest acc
        = (acc ++ rest.filter
            (fun s => searchWholeWord nw (normalize_word s.spanish) &&
              decide (s.wordCount ≤ maxWc))).take cap := by
  intro rest
  induction rest with
  | nil =>
    intro acc hacc
    rw [collectMatches, List.filter_nil, List.append_nil,
      List.take_of_length_le (Nat.le_of_lt hacc)]
  | cons s rest ih =>
    intro acc hacc
    rw [List.filter_cons]
    simp only [collectMatches]
    by_cases hsearch : searchWholeWord nw (normalize_word s.spanish) = true
    · rw [if_pos hsearch]
      by_cases hwc : s.wordCount ≤ maxWc
      · have hwcb : decide (s.wordCount ≤ maxWc) = true := by simp [hwc]
        have hband : (searchWholeWord nw (normalize_word s.spanish) &&
            decide (s.wordCount ≤ maxWc)) = true := by
          rw [hsearch, hwcb]
          rfl
        rw [if_pos hwc, if_pos hband]
        by_cases hcap : cap ≤ (acc ++ [s]).length
        · rw [if_pos hcap]
          have hlen : (acc ++ [s]).length = cap := by
            simp only [List.length_append, List.length_cons, List.length_nil] at hcap ⊢
            omega
          have hsplit : acc ++ s :: rest.filter
              (fun s => searchWholeWord nw (normalize_word s.spanish) &&
                decide (s.wordCount ≤ maxWc))
              = (acc ++ [s]) ++ rest.filter
                (fun s => searchWholeWord nw (normalize_word s.spanish) &&
                  decide (s.wordCount ≤ maxWc)) := by
            simp
          rw [hsplit, List.take_left' hlen]
        · rw [if_neg hcap]
          push_neg at hcap
          rw [ih (acc ++ [s]) hcap]
          congr 1
          simp
      · have hwcb : decide (s.wordCount ≤ maxWc) = false := by simp [hwc]
        have hband : (searchWholeWord nw (normalize_word s.spanish) &&
            decide (s.wordCount ≤ maxWc)) = false := by
          rw [hwcb, Bool.and_false]
        rw [if_neg hwc]
        rw [if_neg (by omega : ¬ cap ≤ acc.length)]
        rw [if_neg (by simp [hband] : ¬ (searchWholeWord nw (normalize_word s.spanish) &&
          decide (s.wordCount ≤ maxWc)) = true)]
        exact ih acc hacc
    · rw [if_neg hsearch]
      have hband : (searchWholeWord nw (normalize_word s.spanish) &&
          decide (s.wordCount ≤ maxWc)) = false := by
        have hf : searchWholeWord nw (normalize_word s.spanish) = false := by
          cases h : searchWholeWord nw (normalize_word s.spanish)
          · rfl
          · exact absurd h hsearch
        rw [hf, Bool.false_and]
      rw [if_neg (by simp [hband] : ¬ (searchWholeWord nw (normalize_word s.spanish) &&
        decide (s.wordCount ≤ maxWc)) = true)]
      exact ih acc hacc

/-- `find_sentences_for_word` with cap 3 in closed form: the first 9
qualifying matches in pool order, stable-sorted ascending by word count,
truncated to 3, projected to ids. -/
theorem find_sentences_for_word_eq (word_spanish : List Char) (sentences : List SentData)
    (cefr_level : Option String) :
    find_sentences_for_word word_spanish sentences 3 cefr_level
      = ((pySort (fun a b => decide (a.wordCount ≤ b.wordCount))
          ((sentences.filter (fun s =>
            searchWholeWord (normalize_word word_spanish) (normalize_word s.spanish) &&
            decide (s.wordCount ≤ get_max_word_count_for_cefr cefr_level))).take 9)).take
          3).map SentData.id := by
  simp only [find_sentences_for_word]
  rw [collectMatches_eq (normalize_word word_spanish)
    (get_max_word_count_for_cefr cefr_level) (3 * 3) sentences []
    (by simp : (([] : List SentData)).length < 3 * 3)]
  rw [List.nil_append]

/-- C5 counterexample: in `c5pool` the word `"gato"` whole-token matches all
ten sentences and every word count is within the default threshold 15, yet
the unique shortest match (`"s10"`, word count 2) is absent from the result —
the scan stops after collecting nine matches, so the returned ids are not the
smallest-word-count matches of the entire pool. -/
theorem C5_counterexample :
    find_sentences_for_word "gato".toList c5pool 3 none = ["s1", "s2", "s3"] ∧
    ("s10" ∉ find_sentences_for_word "gato".toList c5pool 3 none) ∧
    ((c5pool.filter (fun s =>
        searchWholeWord (normalize_word "gato".toList) (normalize_word s.spanish) &&
        decide (s.wordCount ≤ get_max_word_count_for_cefr none))).length = 10) ∧
    ((⟨"s10", "gato".toList, 2⟩ : SentData) ∈ c5pool.filter (fun s =>
        searchWholeWord (normalize_word "gato".toList) (normalize_word s.spanish) &&
        decide (s.wordCount ≤ get_max_word_count_for_cefr none))) ∧
    (c5pool.all (fun s => s.id == "s10" || decide (2 < s.wordCount)) = true) := by
  decide

/-- C5 amended: the per-word selection returns at most 3 ids, drawn from the
first nine qualifying matches in pool order (the scan stops early after nine),
stable-sorted ascending by word count and of minimal word count within those
nine; whenever the pool holds at most nine qualifying matches, the kept and
dropped candidates together are exactly all qualifying matches of the entire
pool. -/
theorem C5_capped_selection (word_spanish : List Char) (sentences : List SentData)
    (cefr_level : Option String) :
    find_sentences_for_word word_spanish sentences 3 cefr_level
      = ((pySort (fun a b => decide (a.wordCount ≤ b.wordCount))
          ((sentences.filter (fun s =>
            searchWholeWord (normalize_word word_spanish) (normalize_word s.spanish) &&
            decide (s.wordCount ≤ get_max_word_count_for_cefr cefr_level))).take 9)).take
          3).map SentData.id ∧
    (find_sentences_for_word word_spanish sentences 3 cefr_level).length ≤ 3 ∧
    ((pySort (fun a b => decide (a.wordCount ≤ b.wordCount))
        ((sentences.filter (fun s =>
          searchWholeWord (normalize_word word_spanish) (normalize_word s.spanish) &&
          decide (s.wordCount ≤ get_max_word_count_for_cefr cefr_level))).take 9)).take
        3).Pairwise (fun a b => a.wordCount ≤ b.wordCount) ∧
    (∀ d ∈ (pySort (fun a b => decide (a.wordCount ≤ b.wordCount))
        ((sentences.filter (fun s =>
          searchWholeWord (normalize_word word_spanish) (normalize_word s.spanish) &&
          decide (s.wordCount ≤ get_max_word_count_for_cefr cefr_level))).take 9)).drop 3,
      ∀ k ∈ (pySort (fun a b => decide (a.wordCount ≤ b.wordCount))
        ((sentences.filter (fun s =>
          searchWholeWord (normalize_word word_spanish) (normalize_word s.spanish) &&
          decide (s.wordCount ≤ get_max_word_count_for_cefr cefr_level))).take 9)).take 3,
        k.wordCount ≤ d.wordCount) ∧
    ((sentences.filter (fun s =>
        searchWholeWord (normalize_word word_spanish) (normalize_word s.spanish) &&
        decide (s.wordCount ≤ get_max_word_count_for_cefr cefr_level))).length ≤ 9 →
      ((pySort (fun a b => decide (a.wordCount ≤ b.wordCount))
          ((sentences.filter (fun s =>
            searchWholeWord (normalize_word word_spanish) (normalize_word s.spanish) &&
            decide (s.wordCount ≤ get_max_word_count_for_cefr cefr_level))).take 9)).take 3
        ++ (pySort (fun a b => decide (a.wordCount ≤ b.wordCount))
          ((sentences.filter (fun s =>
            searchWholeWord (normalize_word word_spanish) (normalize_word s.spanish) &&
            decide (s.wordCount ≤ get_max_word_count_for_cefr cefr_level))).take 9)).drop
          3).Perm
        (sentences.filter (fun s =>
          searchWholeWord (normalize_word word_spanish) (normalize_word s.spanish) &&
          decide (s.wordCount ≤ get_max_word_count_for_cefr cefr_level)))) := by
  have hpair : (pySort (fun a b => decide (a.wordCount ≤ b.wordCount))
      ((sentences.filter (fun s =>
        searchWholeWord (normalize_word word_spanish) (normalize_word s.spanish) &&
        decide (s.wordCount ≤ get_max_word_count_for_cefr cefr_level))).take 9)).Pairwise
      (fun a b => a.wordCount ≤ b.wordCount) := by
    have h := pySort_pairwise (fun a b : SentData => decide (a.wordCount ≤ b.wordCount))
      (fun a b => by
        rcases Nat.le_total a.wordCount b.wordCount with h | h <;> simp [h])
      (fun a b c hab hbc => by
        simp only [decide_eq_true_eq] at hab hbc ⊢
        omega)
      ((sentences.filter (fun s =>
        searchWholeWord (normalize_word word_spanish) (normalize_word s.spanish) &&
        decide (s.wordCount ≤ get_max_word_count_for_cefr cefr_level))).take 9)
    exact h.imp (fun hab => by simpa using hab)
  refine ⟨find_sentences_for_word_eq word_spanish sentences cefr_level, ?_, ?_, ?_, ?_⟩
  · rw [find_sentences_for_word_eq word_spanish sentences cefr_level, List.length_map,
      List.length_take]
    exact Nat.min_le_left _ _
  · exact List.Pairwise.sublist (List.take_sublist _ _) hpair
  · intro d hd k hk
    exact pairwise_take_drop hpair 3 k hk d hd
  · intro h9
    rw [List.take_append_drop,
      List.take_of_length_le h9]
    exact pySort_perm _ _

/-- Witness for C5 (amended): a two-sentence pool with at most nine matches;
the kept and dropped candidates together are all matches of the pool. -/
theorem C5_capped_selection_witness :
    (([⟨"s1", "gato".toList, 5⟩, ⟨"s2", "gato".toList, 2⟩] : List SentData).filter
        (fun s => searchWholeWord (normalize_word "gato".toList) (normalize_word s.spanish) &&
          decide (s.wordCount ≤ get_max_word_count_for_cefr none))).length ≤ 9 ∧
    ((pySort (fun a b => decide (a.wordCount ≤ b.wordCount))
        ((([⟨"s1", "gato".toList, 5⟩, ⟨"s2", "gato".toList, 2⟩] : List SentData).filter
          (fun s => searchWholeWord (normalize_word "gato".toList) (normalize_word s.spanish) &&
            decide (s.wordCount ≤ get_max_word_count_for_cefr none))).take 9)).take 3
      ++ (pySort (fun a b => decide (a.wordCount ≤ b.wordCount))
        ((([⟨"s1", "gato".toList, 5⟩, ⟨"s2", "gato".toList, 2⟩] : List SentData).filter
          (fun s => searchWholeWord (normalize_word "gato".toList) (normalize_word s.spanish) &&
            decide (s.wordCount ≤ get_max_word_count_for_cefr none))).take 9)).drop 3).Perm
      (([⟨"s1", "gato".toList, 5⟩, ⟨"s2", "gato".toList, 2⟩] : List SentData).filter
        (fun s => searchWholeWord (normalize_word "gato".toList) (normalize_word s.spanish) &&
          decide (s.wordCount ≤ get_max_word_count_for_cefr none))) :=
  ⟨by decide,
    (C5_capped_selection "gato".toList
      [⟨"s1", "gato".toList, 5⟩, ⟨"s2", "gato".toList, 2⟩] none).2.2.2.2 (by decide)⟩

/-- C1 counterexample: the same adjacency set `{f1, f2, e1}` (two Finnish
candidates, one English) enumerated in two different orders makes the
resolver select different Finnish translations, so two runs on identical
inputs need not produce identical triples. -/
theorem C1_counterexample :
    (["f1", "f2", "e1"] : List String).Perm ["f2", "f1", "e1"] ∧
    resolve_triple
      [("s1", ("spa", "hola".toList)), ("f1", ("fin", "moi".toList)),
       ("f2", ("fin", "hei".toList)), ("e1", ("eng", "hi".toList))]
      "s1" "hola".toList ["f1", "f2", "e1"]
      ≠ resolve_triple
      [("s1", ("spa", "hola".toList)), ("f1", ("fin", "moi".toList)),
       ("f2", ("fin", "hei".toList)), ("e1", ("eng", "hi".toList))]
      "s1" "hola".toList ["f2", "f1", "e1"] := by
  constructor
  · exact List.Perm.swap "f2" "f1" ["e1"]
  · decide

/-- C1 amended: the resolver is a deterministic function of its inputs
*including the adjacency iteration order*: whenever two runs enumerate the
Finnish candidates in the same relative order and likewise the English
candidates, they resolve the same triple.  Equality of the underlying
adjacency sets alone does not suffice (see the counterexample). -/
theorem C1_resolver_deterministic_given_order
    (sent_text : List (String × String × List Char)) (spa_id : String)
    (spa_txt : List Char) (linked_ids1 linked_ids2 : List String)
    (hfin : linked_ids1.filter (lang_linked sent_text "fin")
      = linked_ids2.filter (lang_linked sent_text "fin"))
    (heng : linked_ids1.filter (lang_linked sent_text "eng")
      = linked_ids2.filter (lang_linked sent_text "eng")) :
    resolve_triple sent_text spa_id spa_txt linked_ids1
      = resolve_triple sent_text spa_id spa_txt linked_ids2 := by
  simp only [resolve_triple]
  rw [hfin, heng]

/-- Witness for C1 (amended): two different raw enumerations that agree on
the per-language candidate order resolve identically. -/
theorem C1_resolver_deterministic_given_order_witness :
    (["x9", "f1", "e1"] : List String).filter
        (lang_linked [("s1", ("spa", "hola".toList)), ("f1", ("fin", "moi".toList)),
          ("e1", ("eng", "hi".toList))] "fin")
      = (["f1", "e1", "y9"] : List String).filter
        (lang_linked [("s1", ("spa", "hola".toList)), ("f1", ("fin", "moi".toList)),
          ("e1", ("eng", "hi".toList))] "fin") ∧
    resolve_triple
      [("s1", ("spa", "hola".toList)), ("f1", ("fin", "moi".toList)),
       ("e1", ("eng", "hi".toList))]
      "s1" "hola".toList ["x9", "f1", "e1"]
      = resolve_triple
      [("s1", ("spa", "hola".toList)), ("f1", ("fin", "moi".toList)),
       ("e1", ("eng", "hi".toList))]
      "s1" "hola".toList ["f1", "e1", "y9"] :=
  ⟨by decide,
    C1_resolver_deterministic_given_order
      [("s1", ("spa", "hola".toList)), ("f1", ("fin", "moi".toList)),
       ("e1", ("eng", "hi".toList))]
      "s1" "hola".toList ["x9", "f1", "e1"] ["f1", "e1", "y9"]
      (by decide) (by decide)⟩

/-- C7 counterexample: serialized size 1,100,000 bytes (over the 500 KB
budget) gives three parts; with 10 sentences the slices hold 4, 4 and 2
sentences — two parts differ by two, so the distribution is not even in the
differ-by-at-most-one sense. -/
theorem C7_counterexample :
    MAX_FILE_SIZE < 1100000 ∧
    (splitParts 1100000 (List.range 10)).map List.length = [4, 4, 2] ∧
    ((splitParts 1100000 (List.range 10)).all (fun p =>
      (splitParts 1100000 (List.range 10)).all (fun q =>
        decide (p.length ≤ q.length + 1)))) = false := by
  decide

/-- C7 amended: when the serialized size exceeds the budget the writer
produces `json_bytes_len / MAX_FILE_SIZE + 1` parts, consecutive slices of
width `sentences_per_part = len / num_parts + 1` that together contain every
sentence exactly once in the original order; every part holds at most
`sentences_per_part` sentences and every part whose slice lies fully inside
the list holds exactly that many, but trailing parts may be smaller by more
than one (or even empty). -/
theorem C7_shard_split {α : Type} (json_bytes_len : Nat) (sentence_dicts : List α)
    (h : MAX_FILE_SIZE < json_bytes_len) :
    write_category_parts json_bytes_len sentence_dicts
      = splitParts json_bytes_len sentence_dicts ∧
    (splitParts json_bytes_len sentence_dicts).length
      = json_bytes_len / MAX_FILE_SIZE + 1 ∧
    (splitParts json_bytes_len sentence_dicts).flatten = sentence_dicts ∧
    (∀ p ∈ splitParts json_bytes_len sentence_dicts,
      p.length ≤ sentence_dicts.length / (json_bytes_len / MAX_FILE_SIZE + 1) + 1) ∧
    (∀ i, i < json_bytes_len / MAX_FILE_SIZE + 1 →
      (i + 1) * (sentence_dicts.length / (json_bytes_len / MAX_FILE_SIZE + 1) + 1)
          ≤ sentence_dicts.length →
      ((sentence_dicts.drop
          (i * (sentence_dicts.length / (json_bytes_len / MAX_FILE_SIZE + 1) + 1))).take
        (sentence_dicts.length / (json_bytes_len / MAX_FILE_SIZE + 1) + 1)).length
        = sentence_dicts.length / (json_bytes_len / MAX_FILE_SIZE + 1) + 1) := by
  refine ⟨?_, ?_, ?_, ?_, ?_⟩
  · rw [write_category_parts, if_pos h]
  · simp only [splitParts, List.length_map, List.length_range]
  · show ((List.range (json_bytes_len / MAX_FILE_SIZE + 1)).map
      (fun part_num => (sentence_dicts.drop (part_num *
        (sentence_dicts.length / (json_bytes_len / MAX_FILE_SIZE + 1) + 1))).take
        (sentence_dicts.length / (json_bytes_len / MAX_FILE_SIZE + 1) + 1))).flatten
      = sentence_dicts
    apply flatten_slices
    have hnp : 0 < json_bytes_len / MAX_FILE_SIZE + 1 := Nat.succ_pos _
    have hdm := Nat.div_add_mod sentence_dicts.length (json_bytes_len / MAX_FILE_SIZE + 1)
    have hmod : sentence_dicts.length % (json_bytes_len / MAX_FILE_SIZE + 1)
        < json_bytes_len / MAX_FILE_SIZE + 1 := Nat.mod_lt _ hnp
    calc sentence_dicts.length
        = (json_bytes_len / MAX_FILE_SIZE + 1) *
            (sentence_dicts.length / (json_bytes_len / MAX_FILE_SIZE + 1))
          + sentence_dicts.length % (json_bytes_len / MAX_FILE_SIZE + 1) := hdm.symm
      _ ≤ (json_bytes_len / MAX_FILE_SIZE + 1) *
            (sentence_dicts.length / (json_bytes_len / MAX_FILE_SIZE + 1))
          + (json_bytes_len / MAX_FILE_SIZE + 1) :=
          Nat.add_le_add_left (Nat.le_of_lt hmod) _
      _ = (json_bytes_len / MAX_FILE_SIZE + 1) *
            (sentence_dicts.length / (json_bytes_len / MAX_FILE_SIZE + 1) + 1) :=
          (Nat.mul_succ _ _).symm
  · intro p hp
    simp only [splitParts, List.mem_map, List.mem_range] at hp
    obtain ⟨i, _, rfl⟩ := hp
    rw [List.length_take]
    exact Nat.min_le_left _ _
  · intro i _ hfull
    rw [List.length_take, List.length_drop]
    apply Nat.min_eq_left
    apply Nat.le_sub_of_add_le
    rw [Nat.succ_mul] at hfull
    rw [Nat.add_comm]
    exact hfull

/-- Witness for C7 (amended): 600,000 bytes and 5 sentences give 2 parts of
sizes 3 and 2; the flatten and the full-slice size are as stated. -/
theorem C7_shard_split_witness :
    MAX_FILE_SIZE < 600000 ∧
    (splitParts 600000 (List.range 5)).flatten = List.range 5 ∧
    (((List.range 5).drop
        (0 * ((List.range 5).length / (600000 / MAX_FILE_SIZE + 1) + 1))).take
      ((List.range 5).length / (600000 / MAX_FILE_SIZE + 1) + 1)).length
      = (List.range 5).length / (600000 / MAX_FILE_SIZE + 1) + 1 := by
  have h := C7_shard_split 600000 (List.range 5) (by decide)
  exact ⟨by decide, h.2.2.1, h.2.2.2.2 0 (by decide) (by decide)⟩

/-- C8 counterexample: with two categories the writer's file-write sequence
is `animals.json`, `food.json`, `index.json`; aborting after the first write
leaves exactly one shard file on disk — neither nothing nor the full output —
so the stage is not atomic. -/
theorem C8_counterexample :
    write_output_trace (fun (_ : List Nat) => 0) [] [("animals", [1]), ("food", [2])]
      = ["animals.json", "food.json", "index.json"] ∧
    ¬ ((write_output_trace (fun (_ : List Nat) => 0) []
          [("animals", [1]), ("food", [2])]).take 1 = [] ∨
       (write_output_trace (fun (_ : List Nat) => 0) []
          [("animals", [1]), ("food", [2])]).take 1
         = write_output_trace (fun (_ : List Nat) => 0) []
            [("animals", [1]), ("food", [2])]) := by
  decide

/-- C8 amended: the stage writes files one at a time directly at their final
paths, so aborting after `k` writes leaves exactly the first `k` files — a
partial shard set can survive an abort.  The manifest `index.json` is written
last, so any abort state that contains the manifest is the complete output. -/
theorem C8_manifest_last {α : Type} (json_len_of : List α → Nat)
    (categories : List Category) (groups : List (String × List α))
    (hnoclash : "index.json" ∉ ((sortGroups categories groups).map
      (fun g => category_filenames g.1 (json_len_of g.2))).flatten) :
    write_output_trace json_len_of categories groups
      = ((sortGroups categories groups).map
          (fun g => category_filenames g.1 (json_len_of g.2))).flatten ++ ["index.json"] ∧
    ∀ k, "index.json" ∈ (write_output_trace json_len_of categories groups).take k →
      (write_output_trace json_len_of categories groups).take k
        = write_output_trace json_len_of categories groups := by
  refine ⟨rfl, ?_⟩
  intro k hk
  by_cases hlen : (write_output_trace json_len_of categories groups).length ≤ k
  · exact List.take_of_length_le hlen
  · exfalso
    push_neg at hlen
    have hk2 : k ≤ ((sortGroups categories groups).map
        (fun g => category_filenames g.1 (json_len_of g.2))).flatten.length := by
      have : (write_output_trace json_len_of categories groups).length
          = ((sortGroups categories groups).map
              (fun g => category_filenames g.1 (json_len_of g.2))).flatten.length + 1 := by
        show (((sortGroups categories groups).map
          (fun g => category_filenames g.1 (json_len_of g.2))).flatten
            ++ ["index.json"]).length = _
        rw [List.length_append]
        rfl
      omega
    have htake : (write_output_trace json_len_of categories groups).take k
        = (((sortGroups categories groups).map
            (fun g => category_filenames g.1 (json_len_of g.2))).flatten).take k := by
      show ((((sortGroups categories groups).map
          (fun g => category_filenames g.1 (json_len_of g.2))).flatten)
            ++ ["index.json"]).take k = _
      rw [List.take_append_of_le_length hk2]
    rw [htake] at hk
    exact hnoclash (List.mem_of_mem_take hk)

/-- Witness for C8 (amended): in the two-category trace the abort state after
all three writes contains the manifest and equals the complete output. -/
theorem C8_manifest_last_witness :
    "index.json" ∈ (write_output_trace (fun (_ : List Nat) => 0) []
      [("animals", [1]), ("food", [2])]).take 3 ∧
    (write_output_trace (fun (_ : List Nat) => 0) []
      [("animals", [1]), ("food", [2])]).take 3
      = write_output_trace (fun (_ : List Nat) => 0) [] [("animals", [1]), ("food", [2])] :=
  ⟨by decide,
    (C8_manifest_last (fun (_ : List Nat) => 0) [] [("animals", [1]), ("food", [2])]
      (by decide)).2 3 (by decide)⟩

end Espanjapeli
